import Mathlib

/-!
Verification of the tool-calling bridge of the todo-chatbot backend.

The definitions below are a shallow embedding of the Python sources:
* `src/backend/src/mcp_server/server.py` (`MockAuthService`, `TodoMCPTools`)
* `src/backend/src/api/chat.py` (`execute_tool_calls`, `chat_endpoint`)
* `src/backend/src/services/chat_service.py` (`ChatService`)
* `src/backend/src/services/ai_agent_manager.py` (`AIAgentManager.process_message`)

The SQL task and message stores are modelled as in-memory lists in insertion
order (rows are appended on insert; `created_at` ordering coincides with list
order since timestamps are monotone).  Python exceptions raised by the tools
are modelled with `Except String`, the payload being the exception text.
-/

namespace Todo

/-- Accumulating decimal-digit parser over characters. -/
def pyDigitsAux : List Char → Nat → Option Nat
  | [], acc => some acc
  | c :: cs, acc =>
    if c.isDigit then pyDigitsAux cs (acc * 10 + (c.toNat - 48)) else none

/-- A non-empty all-digit character list parses to its decimal value. -/
def pyDigits? : List Char → Option Nat
  | [] => none
  | cs => pyDigitsAux cs 0

/-- Strip leading and trailing whitespace from a character list. -/
def pyTrimChars (cs : List Char) : List Char :=
  ((cs.dropWhile Char.isWhitespace).reverse.dropWhile Char.isWhitespace).reverse

/-- Python `int(s)`: optional surrounding whitespace, an optional sign,
then decimal digits.  `none` models a raised `ValueError`. -/
def pyInt? (s : String) : Option Int :=
  match pyTrimChars s.data with
  | '-' :: rest => (pyDigits? rest).map (fun n => -(n : Int))
  | '+' :: rest => (pyDigits? rest).map (fun n => (n : Int))
  | rest => (pyDigits? rest).map (fun n => (n : Int))

/-- `MockAuthService.validate_user` (server.py lines 15-24): the user id must
parse as an `int` and be positive. -/
def validate_user (user_id : String) : Bool :=
  match pyInt? user_id with
  | some n => decide (0 < n)
  | none => false

/-- A row of the `tasks` table (models/task.py), restricted to the fields the
bridge reads or writes. -/
structure Task where
  id : Int
  user_id : Int
  title : String
  description : String
  completed : Bool
deriving DecidableEq

/-- The task table plus the autoincrement counter for the primary key. -/
structure TaskStore where
  tasks : List Task
  nextId : Int
deriving DecidableEq

/-- The model-supplied arguments of one tool call, as a record of the
parameter names the dispatcher reads (`params.get(...)`); `none` models an
absent key. -/
structure ToolArgs where
  user_id : String
  task_id : Option String := none
  title : Option String := none
  description : Option String := none
  status : Option String := none
  task_name : Option String := none
  name : Option String := none
  task_title : Option String := none
  title_to_find : Option String := none
  new_title : Option String := none
  new_description : Option String := none
deriving DecidableEq

/-- Python `a or b` on optional strings: `None` and `""` are falsy and fall
through to the second operand. -/
def orS (a b : Option String) : Option String :=
  match a with
  | some s => if s = "" then b else some s
  | none => b

/-- The title-escaping step of `delete_task` (server.py line 169):
`title.replace('%', '\\%').replace('_', '\\_')`, as one pass over the
characters (no inserted character is itself `%` or `_`, so one pass agrees
with the two sequential replacements). -/
def escapeLikeChars : List Char → List Char
  | [] => []
  | c :: cs =>
    if c = '%' ∨ c = '_' then '\\' :: c :: escapeLikeChars cs
    else c :: escapeLikeChars cs

def escapeLike (s : String) : String := ⟨escapeLikeChars s.data⟩

/-- SQL `LIKE` pattern matching over characters: `%` matches any sequence,
`_` any single character, and a backslash escapes the next pattern
character (the default escape of the underlying database).  Fuel-indexed so
that the definition is structural; callers supply fuel that provably
suffices (every step consumes one fuel unit and shrinks pattern+string). -/
def likeMatchF : Nat → List Char → List Char → Bool
  | 0, _, _ => false
  | _ + 1, [], s => s.isEmpty
  | f + 1, '%' :: ps, s =>
    likeMatchF f ps s ||
      (match s with
       | [] => false
       | _ :: s' => likeMatchF f ('%' :: ps) s')
  | _ + 1, ['\\'], s => s == ['\\']
  | f + 1, '\\' :: c :: ps, s =>
    (match s with
     | [] => false
     | c' :: s' => c == c' && likeMatchF f ps s')
  | f + 1, '_' :: ps, s =>
    (match s with
     | [] => false
     | _ :: s' => likeMatchF f ps s')
  | f + 1, c :: ps, s =>
    (match s with
     | [] => false
     | c' :: s' => c == c' && likeMatchF f ps s')

/-- Lower-case a string as a character list. -/
def lowerChars (s : String) : List Char := s.data.map Char.toLower

/-- `column.ilike(pattern)`: case-insensitive `LIKE`. -/
def sqlILike (s pattern : String) : Bool :=
  let p := lowerChars pattern
  let t := lowerChars s
  likeMatchF (p.length + t.length + 1) p t

/-- Replace the first list element satisfying `p` by its image under `f`
(models an in-place SQLAlchemy row update followed by commit). -/
def updateFirst (p : Task → Bool) (f : Task → Task) : List Task → List Task
  | [] => []
  | t :: ts => if p t then f t :: ts else t :: updateFirst p f ts

/-- Remove the first list element satisfying `p` (models `session.delete` of
the row returned by `.first()`). -/
def removeFirst (p : Task → Bool) : List Task → List Task
  | [] => []
  | t :: ts => if p t then ts else t :: removeFirst p ts

/-- Result dictionary of `TodoMCPTools.add_task`. -/
structure AddResult where
  task_id : Int
  status : String
  title : String
  description : String
  completed : Bool
deriving DecidableEq

/-- One entry of the list returned by `TodoMCPTools.list_tasks`. -/
structure TaskOut where
  id : Int
  title : String
  description : String
  completed : Bool
  user_id : Int
deriving DecidableEq

/-- Result dictionary of `TodoMCPTools.complete_task`. -/
structure CompleteResult where
  task_id : Int
  status : String
  title : String
deriving DecidableEq

/-- Result dictionary of `TodoMCPTools.delete_task`. -/
structure DeleteResult where
  task_id : Int
  title : String
  status : String
deriving DecidableEq

/-- Result dictionary of `TodoMCPTools.update_task`. -/
structure UpdateResult where
  task_id : Int
  status : String
  title : String
  description : String
deriving DecidableEq

/-- `TodoMCPTools.add_task` (server.py lines 32-60).  `params["title"]`
is read before validation, so a missing key raises `KeyError` first. -/
def add_task (store : TaskStore) (p : ToolArgs) :
    Except String (AddResult × TaskStore) :=
  match p.title with
  | none => .error "\x27title\x27"
  | some title =>
    let description := (p.description).getD ""
    if !(validate_user p.user_id) then
      .error ("Invalid user: " ++ p.user_id)
    else
      match pyInt? p.user_id with
      | none => .error ("Invalid user_id format: " ++ p.user_id)
      | some u =>
        let newTask : Task :=
          { id := store.nextId, user_id := u, title := title,
            description := description, completed := false }
        .ok ({ task_id := newTask.id, status := "created",
               title := newTask.title, description := newTask.description,
               completed := newTask.completed },
             { tasks := store.tasks ++ [newTask], nextId := store.nextId + 1 })

/-- `TodoMCPTools.list_tasks` (server.py lines 62-96). -/
def list_tasks (store : TaskStore) (p : ToolArgs) :
    Except String (List TaskOut × TaskStore) :=
  let status_filter := (p.status).getD "all"
  if !(validate_user p.user_id) then
    .error ("Invalid user: " ++ p.user_id)
  else
    match pyInt? p.user_id with
    | none => .error ("Invalid user_id format: " ++ p.user_id)
    | some u =>
      let base := store.tasks.filter (fun t => t.user_id == u)
      let ts :=
        if status_filter == "pending" then base.filter (fun t => !t.completed)
        else if status_filter == "completed" then base.filter (fun t => t.completed)
        else base
      .ok (ts.map (fun t =>
        { id := t.id, title := t.title, description := t.description,
          completed := t.completed, user_id := t.user_id }), store)

/-- `TodoMCPTools.complete_task` (server.py lines 98-132).
`params["task_id"]` is read before validation (`KeyError` when absent). -/
def complete_task (store : TaskStore) (p : ToolArgs) :
    Except String (CompleteResult × TaskStore) :=
  match p.task_id with
  | none => .error "\x27task_id\x27"
  | some sid =>
    if !(validate_user p.user_id) then
      .error ("Invalid user: " ++ p.user_id)
    else
      match pyInt? p.user_id, pyInt? sid with
      | some u, some tid =>
        match store.tasks.find? (fun t => t.id == tid && t.user_id == u) with
        | none => .error ("Task " ++ sid ++ " not found for user " ++ p.user_id)
        | some t =>
          let updated := { t with completed := true }
          .ok ({ task_id := updated.id, status := "completed",
                 title := updated.title },
               { store with
                 tasks := updateFirst (fun t => t.id == tid && t.user_id == u)
                   (fun t => { t with completed := true }) store.tasks })
      | _, _ => .error "Invalid user_id or task_id format"

/-- The alias chain `params.get("title") or params.get("task_name") or
params.get("name") or params.get("task_title")` of `delete_task`. -/
def deleteAlias (p : ToolArgs) : Option String :=
  orS p.title (orS p.task_name (orS p.name p.task_title))

/-- `TodoMCPTools.delete_task` (server.py lines 134-191): identification by
`task_id` when present (preferred), else by the title alias chain, matched
case-insensitively as a substring with `%`/`_` escaped. -/
def delete_task (store : TaskStore) (p : ToolArgs) :
    Except String (DeleteResult × TaskStore) :=
  let task_title := deleteAlias p
  if !(validate_user p.user_id) then
    .error ("Invalid user: " ++ p.user_id)
  else
    match pyInt? p.user_id with
    | none => .error "Invalid user_id format"
    | some u =>
      match p.task_id with
      | some sid =>
        match pyInt? sid with
        | none => .error "Invalid task_id format"
        | some tid =>
          match store.tasks.find? (fun t => t.id == tid && t.user_id == u) with
          | none =>
            .error ("Task " ++ sid ++ " not found for user " ++ p.user_id)
          | some t =>
            .ok ({ task_id := t.id, title := t.title, status := "deleted" },
                 { store with
                   tasks := removeFirst (fun t => t.id == tid && t.user_id == u)
                     store.tasks })
      | none =>
        match task_title with
        | some ttl =>
          let pat := "%" ++ escapeLike ttl ++ "%"
          match store.tasks.find?
              (fun t => sqlILike t.title pat && t.user_id == u) with
          | none =>
            .error ("Task with title \x27" ++ ttl ++
              "\x27 not found for user " ++ p.user_id)
          | some t =>
            .ok ({ task_id := t.id, title := t.title, status := "deleted" },
                 { store with
                   tasks := removeFirst
                     (fun t => sqlILike t.title pat && t.user_id == u)
                     store.tasks })
        | none => .error "Either task_id or title must be provided for deletion"

/-- The alias chain of `update_task` for the title used to find the task:
`title_to_find or task_name or name or task_title or title`. -/
def updateAlias (p : ToolArgs) : Option String :=
  orS p.title_to_find (orS p.task_name (orS p.name (orS p.task_title p.title)))

/-- `TodoMCPTools.update_task` (server.py lines 193-260).  Note: the
title-based lookup here does NOT escape `%`/`_` (unlike `delete_task`);
`new_title` falls back to `title`, `new_description` to `description`. -/
def update_task (store : TaskStore) (p : ToolArgs) :
    Except String (UpdateResult × TaskStore) :=
  let task_title := updateAlias p
  let new_title := orS p.new_title p.title
  let new_description := orS p.new_description p.description
  if !(validate_user p.user_id) then
    .error ("Invalid user: " ++ p.user_id)
  else
    match pyInt? p.user_id with
    | none => .error "Invalid user_id format"
    | some u =>
      let apply := fun (t : Task) =>
        { t with
          title := match new_title with | some nt => nt | none => t.title,
          description :=
            match new_description with | some nd => nd | none => t.description }
      match p.task_id with
      | some sid =>
        match pyInt? sid with
        | none => .error "Invalid task_id format"
        | some tid =>
          match store.tasks.find? (fun t => t.id == tid && t.user_id == u) with
          | none =>
            .error ("Task " ++ sid ++ " not found for user " ++ p.user_id)
          | some t =>
            let t' := apply t
            .ok ({ task_id := t'.id, status := "updated", title := t'.title,
                   description := t'.description },
                 { store with
                   tasks := updateFirst (fun t => t.id == tid && t.user_id == u)
                     apply store.tasks })
      | none =>
        match task_title with
        | some ttl =>
          let pat := "%" ++ ttl ++ "%"
          match store.tasks.find?
              (fun t => sqlILike t.title pat && t.user_id == u) with
          | none =>
            .error ("Task with title \x27" ++ ttl ++
              "\x27 not found for user " ++ p.user_id)
          | some t =>
            let t' := apply t
            .ok ({ task_id := t'.id, status := "updated", title := t'.title,
                   description := t'.description },
                 { store with
                   tasks := updateFirst
                     (fun t => sqlILike t.title pat && t.user_id == u)
                     apply store.tasks })
        | none =>
          .error "Either task_id or title_to_find must be provided for update"

/-- One tool call requested by the model (chat.py loop variables
`tool_call["function"]["name"]` / `["arguments"]`). -/
structure ToolCallReq where
  call_id : String
  function_name : String
  args : ToolArgs
deriving DecidableEq

/-- The `try/except` wrapper around one tool invocation in the loop of
`execute_tool_calls` (chat.py lines 40-62): a normal result yields its
success summary and the store after the call; a raised exception yields the
error fragment (prefix plus the exception text) and leaves the store as it
was before the call. -/
def foldTool {A : Type} (store : TaskStore) (okFrag : A → String)
    (errPrefix : String) (e : Except String (A × TaskStore)) :
    String × TaskStore :=
  match e with
  | .ok (r, s) => (okFrag r, s)
  | .error m => (errPrefix ++ m, store)

/-- Body of the loop of `execute_tool_calls` (chat.py lines 33-62) for one
call: overwrite `arguments["user_id"]` with `str(current_user.id)`, dispatch
on the function name, and produce the per-call outcome fragment. -/
def dispatchCall (u : Int) (store : TaskStore) (c : ToolCallReq) :
    String × TaskStore :=
  let args := { c.args with user_id := toString u }
  if c.function_name == "add_task" then
    foldTool store (fun r => "Added task: " ++ r.title)
      "Error executing add_task: " (add_task store args)
  else if c.function_name == "list_tasks" then
    foldTool store (fun r => "Found " ++ toString r.length ++ " tasks")
      "Error executing list_tasks: " (list_tasks store args)
  else if c.function_name == "complete_task" then
    foldTool store (fun r => "Completed task: " ++ r.title)
      "Error executing complete_task: " (complete_task store args)
  else if c.function_name == "delete_task" then
    foldTool store (fun r => "Deleted task ID: " ++ toString r.task_id)
      "Error executing delete_task: " (delete_task store args)
  else if c.function_name == "update_task" then
    foldTool store (fun r => "Updated task: " ++ r.title)
      "Error executing update_task: " (update_task store args)
  else
    ("Unknown function: " ++ c.function_name, store)

/-- The loop of `execute_tool_calls`: sequential dispatch threading the
store, collecting one outcome fragment per call. -/
def executeToolCallsList (u : Int) (store : TaskStore) :
    List ToolCallReq → List String × TaskStore
  | [] => ([], store)
  | c :: cs =>
    let r := dispatchCall u store c
    let rest := executeToolCallsList u r.2 cs
    (r.1 :: rest.1, rest.2)

/-- `execute_tool_calls` (chat.py lines 24-64): the joined summary
`"; ".join(results)` plus the final task store. -/
def execute_tool_calls (calls : List ToolCallReq) (u : Int)
    (store : TaskStore) : String × TaskStore :=
  let r := executeToolCallsList u store calls
  (String.intercalate "; " r.1, r.2)

/-- A row of the `conversations` table, restricted to the fields the bridge
reads. -/
structure Conversation where
  id : Nat
  user_id : Int
deriving DecidableEq

/-- A row of the `messages` table.  Rows are appended in creation order, so
list order realises the `created_at` ascending order used by queries. -/
structure Message where
  id : Nat
  conversation_id : Nat
  user_id : Int
  role : String
  content : String
deriving DecidableEq

/-- The database state visible to one chat turn. -/
structure ChatState where
  conversations : List Conversation
  nextConversationId : Nat
  messages : List Message
  nextMessageId : Nat
  store : TaskStore
deriving DecidableEq

/-- `ChatService.get_conversation`: first row with matching id and owner. -/
def get_conversation (st : ChatState) (cid : Nat) (uid : Int) :
    Option Conversation :=
  st.conversations.find? (fun c => c.id == cid && c.user_id == uid)

/-- `ChatService.create_conversation` for an integer user id. -/
def create_conversation (uid : Int) (st : ChatState) :
    Conversation × ChatState :=
  let c : Conversation := { id := st.nextConversationId, user_id := uid }
  (c, { st with conversations := st.conversations ++ [c],
                nextConversationId := st.nextConversationId + 1 })

/-- `ChatService.get_or_create_conversation`.  Python `if conversation_id:`
is truthiness, so `0` (and `None`) lead to creation of a fresh
conversation. -/
def get_or_create_conversation (cid? : Option Nat) (uid : Int)
    (st : ChatState) : Conversation × ChatState :=
  match cid? with
  | some cid =>
    if cid ≠ 0 then
      match get_conversation st cid uid with
      | some c => (c, st)
      | none => create_conversation uid st
    else create_conversation uid st
  | none => create_conversation uid st

/-- `ChatService.add_message` for an integer user id. -/
def add_message (cid : Nat) (uid : Int) (role content : String)
    (st : ChatState) : Message × ChatState :=
  let m : Message := { id := st.nextMessageId, conversation_id := cid,
                       user_id := uid, role := role, content := content }
  (m, { st with messages := st.messages ++ [m],
                nextMessageId := st.nextMessageId + 1 })

/-- `ChatService.get_conversation_history` (chat_service.py lines 67-78):
messages of the conversation and owner, ordered by `created_at` ascending,
limited to the first 50 rows of that order. -/
def get_conversation_history (st : ChatState) (cid : Nat) (uid : Int) :
    List Message :=
  (st.messages.filter
    (fun m => m.conversation_id == cid && m.user_id == uid)).take 50

/-- One `{role, content}` turn handed to the completion client. -/
structure ChatMsg where
  role : String
  content : String
deriving DecidableEq

/-- Outcome of the completion-client call, as seen inside
`AIAgentManager.process_message`: a tool-call batch, a plain message, or a
raised exception whose text is `detail`. -/
inductive AIRawResult where
  | toolCalls (calls : List ToolCallReq) (content : String)
  | message (content : String)
  | exn (detail : String)
deriving DecidableEq

/-- The fixed safe content `process_message` substitutes when the completion
call raises (ai_agent_manager.py lines 32-37); the detail is only logged. -/
def safeErrorContent : String :=
  "Sorry, I encountered an error processing your request. Please try again."

/-- What `chat_endpoint` extracts from the processed result: either the
tool-call batch to dispatch, or the reply content to use directly. -/
inductive ProcessedResult where
  | toolCalls (calls : List ToolCallReq)
  | content (text : String)
deriving DecidableEq

/-- `AIAgentManager.process_message` combined with the branch of
`chat_endpoint` on `ai_result["type"]`: tool calls pass through; a plain
message contributes its content; an exception becomes the safe error
content (type `"error"`, which falls to the content branch). -/
def processMessage (r : AIRawResult) : ProcessedResult :=
  match r with
  | .toolCalls cs _ => .toolCalls cs
  | .message c => .content c
  | .exn _ => .content safeErrorContent

/-- HTTP-level outcome of one chat turn. -/
inductive ChatResponseOut where
  | ok (conversation_id : Nat) (response : String)
  | forbidden (detail : String)
deriving DecidableEq

/-- Full observable outcome of one chat turn: the response, the database
state afterwards, whether the completion client was invoked, the message
sequence it received, and how many tool calls were executed. -/
structure TurnResult where
  response : ChatResponseOut
  state : ChatState
  completionCalled : Bool
  sentToModel : List ChatMsg
  toolCallsExecuted : Nat
deriving DecidableEq

/-- `chat_endpoint` (chat.py lines 67-162).  The path/session identity gate
runs first; then the conversation is resolved, the inbound message
persisted, the bounded history (minus its last element) plus the current
message sent to the completion client (modelled as the oracle argument),
tool calls dispatched if requested, and the reply persisted. -/
def chatTurn (path_user_id : String) (message : String)
    (conversation_id : Option Nat) (current_user : Int)
    (oracle : List ChatMsg → AIRawResult) (st : ChatState) : TurnResult :=
  if toString current_user ≠ path_user_id then
    { response := .forbidden "Access denied", state := st,
      completionCalled := false, sentToModel := [], toolCallsExecuted := 0 }
  else
    let conv := get_or_create_conversation conversation_id current_user st
    let st1 := conv.2
    let st2 := (add_message conv.1.id current_user "user" message st1).2
    let history := get_conversation_history st2 conv.1.id current_user
    let formatted := history.map (fun m => ChatMsg.mk m.role m.content)
    let sent := formatted.dropLast ++ [ChatMsg.mk "user" message]
    match processMessage (oracle sent) with
    | .toolCalls calls =>
      let r := execute_tool_calls calls current_user st2.store
      let responseContent := "I\x27ve processed your request. " ++ r.1
      let st3 := { st2 with store := r.2 }
      let st4 := (add_message conv.1.id current_user "assistant"
        responseContent st3).2
      { response := .ok conv.1.id responseContent, state := st4,
        completionCalled := true, sentToModel := sent,
        toolCallsExecuted := calls.length }
    | .content c =>
      let st4 := (add_message conv.1.id current_user "assistant" c st2).2
      { response := .ok conv.1.id c, state := st4,
        completionCalled := true, sentToModel := sent,
        toolCallsExecuted := 0 }

/-- The two-sided frame property: every row of `s'` that is not an original
row of `s` belongs to user `u`, and every original row that disappeared or
changed belonged to user `u`. -/
def onlyTouches (u : Int) (s s' : TaskStore) : Prop :=
  (∀ t ∈ s'.tasks, t ∈ s.tasks ∨ t.user_id = u) ∧
  (∀ t ∈ s.tasks, t ∈ s'.tasks ∨ t.user_id = u)

/-- Modelled from the claim of C5 (the spec sentence): the history for
turn k is the first k−1 persisted messages of the conversation,
oldest-first, truncated to the MOST RECENT 50 when they exceed 50. -/
def claimHistoryC5 (prior : List Message) : List Message :=
  (prior.reverse.take 50).reverse

/-- A conversation of user 1 holding exactly 50 persisted messages, for
exercising the history bound. -/
def c5prior : List Message :=
  (List.range 50).map (fun i => ⟨i + 1, 1, 1, "user", "m"⟩)

def c5state : ChatState := ⟨[⟨1, 1⟩], 2, c5prior, 51, ⟨[], 1⟩⟩

/-! ### Helper lemmas -/

theorem string_append_ne_empty {a : String} (b : String) (h : a ≠ "") :
    a ++ b ≠ "" := by
  intro hc
  apply h
  have hd := congrArg String.data hc
  rw [String.data_append] at hd
  have ha : a.data = [] := (List.append_eq_nil.mp hd).1
  cases a
  simp_all

theorem mem_updateFirst {p : Task → Bool} {f : Task → Task} {ts : List Task}
    {t' : Task} (h : t' ∈ updateFirst p f ts) :
    t' ∈ ts ∨ ∃ t, t ∈ ts ∧ p t = true ∧ t' = f t := by
  induction ts with
  | nil => simp [updateFirst] at h
  | cons a as ih =>
    simp only [updateFirst] at h
    by_cases hp : p a = true
    · rw [if_pos hp] at h
      rcases List.mem_cons.mp h with h1 | h2
      · exact Or.inr ⟨a, List.mem_cons_self _ _, hp, h1⟩
      · exact Or.inl (List.mem_cons_of_mem _ h2)
    · rw [if_neg hp] at h
      rcases List.mem_cons.mp h with h1 | h2
      · exact Or.inl (h1 ▸ List.mem_cons_self _ _)
      · rcases ih h2 with h3 | ⟨t, ht, hpt, he⟩
        · exact Or.inl (List.mem_cons_of_mem _ h3)
        · exact Or.inr ⟨t, List.mem_cons_of_mem _ ht, hpt, he⟩

theorem mem_of_mem_updateFirst {p : Task → Bool} {f : Task → Task}
    {ts : List Task} {t : Task} (h : t ∈ ts) :
    t ∈ updateFirst p f ts ∨ p t = true := by
  induction ts with
  | nil => simp at h
  | cons a as ih =>
    simp only [updateFirst]
    by_cases hp : p a = true
    · rw [if_pos hp]
      rcases List.mem_cons.mp h with h1 | h2
      · exact Or.inr (h1 ▸ hp)
      · exact Or.inl (List.mem_cons_of_mem _ h2)
    · rw [if_neg hp]
      rcases List.mem_cons.mp h with h1 | h2
      · exact Or.inl (h1 ▸ List.mem_cons_self _ _)
      · rcases ih h2 with h3 | h4
        · exact Or.inl (List.mem_cons_of_mem _ h3)
        · exact Or.inr h4

theorem mem_removeFirst {p : Task → Bool} {ts : List Task} {t' : Task}
    (h : t' ∈ removeFirst p ts) : t' ∈ ts := by
  induction ts with
  | nil => simp [removeFirst] at h
  | cons a as ih =>
    simp only [removeFirst] at h
    by_cases hp : p a = true
    · rw [if_pos hp] at h
      exact List.mem_cons_of_mem _ h
    · rw [if_neg hp] at h
      rcases List.mem_cons.mp h with h1 | h2
      · exact h1 ▸ List.mem_cons_self _ _
      · exact List.mem_cons_of_mem _ (ih h2)

theorem mem_of_mem_removeFirst {p : Task → Bool} {ts : List Task} {t : Task}
    (h : t ∈ ts) : t ∈ removeFirst p ts ∨ p t = true := by
  induction ts with
  | nil => simp at h
  | cons a as ih =>
    simp only [removeFirst]
    by_cases hp : p a = true
    · rw [if_pos hp]
      rcases List.mem_cons.mp h with h1 | h2
      · exact Or.inr (h1 ▸ hp)
      · exact Or.inl h2
    · rw [if_neg hp]
      rcases List.mem_cons.mp h with h1 | h2
      · exact Or.inl (h1 ▸ List.mem_cons_self _ _)
      · rcases ih h2 with h3 | h4
        · exact Or.inl (List.mem_cons_of_mem _ h3)
        · exact Or.inr h4

theorem updateFirst_eq_self {p : Task → Bool} {f : Task → Task}
    {ts : List Task} {a : Task} (hfind : ts.find? p = some a)
    (hfix : f a = a) : updateFirst p f ts = ts := by
  induction ts with
  | nil => simp at hfind
  | cons b bs ih =>
    simp only [updateFirst]
    by_cases hp : p b = true
    · rw [List.find?_cons_of_pos _ hp] at hfind
      rw [if_pos hp]
      have : a = b := by injection hfind with h; exact h.symm
      rw [← this, hfix]
    · rw [List.find?_cons_of_neg _ hp] at hfind
      rw [if_neg hp, ih hfind]

theorem image_mem_updateFirst {p : Task → Bool} {f : Task → Task}
    {ts : List Task} {a : Task} (hfind : ts.find? p = some a) :
    f a ∈ updateFirst p f ts := by
  induction ts with
  | nil => simp at hfind
  | cons b bs ih =>
    simp only [updateFirst]
    by_cases hp : p b = true
    · rw [List.find?_cons_of_pos _ hp] at hfind
      rw [if_pos hp]
      have : a = b := by injection hfind with h; exact h.symm
      rw [← this]
      exact List.mem_cons_self _ _
    · rw [List.find?_cons_of_neg _ hp] at hfind
      rw [if_neg hp]
      exact List.mem_cons_of_mem _ (ih hfind)

theorem uid_of_idPred {tid u : Int} {t : Task}
    (h : (t.id == tid && t.user_id == u) = true) : t.user_id = u := by
  simp only [Bool.and_eq_true, beq_iff_eq] at h
  exact h.2

theorem uid_of_titlePred {pat : String} {u : Int} {t : Task}
    (h : (sqlILike t.title pat && t.user_id == u) = true) : t.user_id = u := by
  simp only [Bool.and_eq_true, beq_iff_eq] at h
  exact h.2

theorem onlyTouches_refl (u : Int) (s : TaskStore) : onlyTouches u s s :=
  ⟨fun t ht => Or.inl ht, fun t ht => Or.inl ht⟩

theorem onlyTouches_trans {u : Int} {s₁ s₂ s₃ : TaskStore}
    (h₁ : onlyTouches u s₁ s₂) (h₂ : onlyTouches u s₂ s₃) :
    onlyTouches u s₁ s₃ := by
  constructor
  · intro t ht
    rcases h₂.1 t ht with h | h
    · exact h₁.1 t h
    · exact Or.inr h
  · intro t ht
    rcases h₁.2 t ht with h | h
    · rcases h₂.2 t h with h' | h'
      · exact Or.inl h'
      · exact Or.inr h'
    · exact Or.inr h

theorem add_task_onlyTouches {store : TaskStore} {p : ToolArgs} {s : String}
    {u : Int} {r : AddResult} {s' : TaskStore}
    (h : add_task store p = .ok (r, s')) (hs : p.user_id = s)
    (hu0 : pyInt? s = some u) : onlyTouches u store s' := by
  have hu : pyInt? p.user_id = some u := by rw [hs]; exact hu0
  rcases htitle : p.title with _ | t
  · simp only [add_task, htitle] at h
    exact absurd h (by simp)
  · simp only [add_task, htitle, hu] at h
    split at h
    · exact absurd h (by simp)
    · simp only [Except.ok.injEq, Prod.mk.injEq] at h
      rw [← h.2]
      constructor
      · intro t ht
        rcases List.mem_append.mp ht with h1 | h2
        · exact Or.inl h1
        · simp at h2
          exact Or.inr (by rw [h2])
      · intro t ht
        exact Or.inl (List.mem_append.mpr (Or.inl ht))

theorem list_tasks_onlyTouches {store : TaskStore} {p : ToolArgs} {u : Int}
    {r : List TaskOut} {s' : TaskStore}
    (h : list_tasks store p = .ok (r, s')) : onlyTouches u store s' := by
  unfold list_tasks at h
  split at h
  · exact absurd h (by simp)
  · split at h
    · exact absurd h (by simp)
    · simp only [Except.ok.injEq, Prod.mk.injEq] at h
      rw [← h.2]
      exact onlyTouches_refl u store

theorem complete_task_onlyTouches {store : TaskStore} {p : ToolArgs} {s : String}
    {u : Int} {r : CompleteResult} {s' : TaskStore}
    (h : complete_task store p = .ok (r, s')) (hs : p.user_id = s)
    (hu0 : pyInt? s = some u) : onlyTouches u store s' := by
  have hu : pyInt? p.user_id = some u := by rw [hs]; exact hu0
  rcases htid : p.task_id with _ | sid
  · exact absurd h (by simp [complete_task, htid])
  · rcases hparse : pyInt? sid with _ | tid
    · simp only [complete_task, htid, hu, hparse] at h
      split at h <;> exact absurd h (by simp)
    · simp only [complete_task, htid, hu, hparse] at h
      split at h
      · exact absurd h (by simp)
      · split at h
        · exact absurd h (by simp)
        · simp only [Except.ok.injEq, Prod.mk.injEq] at h
          rw [← h.2]
          constructor
          · intro t ht
            rcases mem_updateFirst ht with h1 | ⟨t0, ht0, hp0, he⟩
            · exact Or.inl h1
            · refine Or.inr ?_
              rw [he]
              exact uid_of_idPred (t := t0) hp0
          · intro t ht
            rcases mem_of_mem_updateFirst (p := fun t => t.id == tid && t.user_id == u)
                (f := fun t => { t with completed := true }) ht with h1 | h2
            · exact Or.inl h1
            · exact Or.inr (uid_of_idPred h2)

theorem delete_task_onlyTouches {store : TaskStore} {p : ToolArgs} {s : String}
    {u : Int} {r : DeleteResult} {s' : TaskStore}
    (h : delete_task store p = .ok (r, s')) (hs : p.user_id = s)
    (hu0 : pyInt? s = some u) : onlyTouches u store s' := by
  have hu : pyInt? p.user_id = some u := by rw [hs]; exact hu0
  rcases htid : p.task_id with _ | sid
  · rcases halias : deleteAlias p with _ | ttl
    · simp only [delete_task, htid, halias, hu] at h
      split at h <;> exact absurd h (by simp)
    · simp only [delete_task, htid, halias, hu] at h
      split at h
      · exact absurd h (by simp)
      · split at h
        · exact absurd h (by simp)
        · simp only [Except.ok.injEq, Prod.mk.injEq] at h
          rw [← h.2]
          constructor
          · intro t ht
            exact Or.inl (mem_removeFirst ht)
          · intro t ht
            rcases mem_of_mem_removeFirst
                (p := fun t => sqlILike t.title ("%" ++ escapeLike ttl ++ "%") && t.user_id == u)
                ht with h1 | h2
            · exact Or.inl h1
            · exact Or.inr (uid_of_titlePred h2)
  · rcases hparse : pyInt? sid with _ | tid
    · simp only [delete_task, htid, hparse, hu] at h
      split at h <;> exact absurd h (by simp)
    · simp only [delete_task, htid, hparse, hu] at h
      split at h
      · exact absurd h (by simp)
      · split at h
        · exact absurd h (by simp)
        · simp only [Except.ok.injEq, Prod.mk.injEq] at h
          rw [← h.2]
          constructor
          · intro t ht
            exact Or.inl (mem_removeFirst ht)
          · intro t ht
            rcases mem_of_mem_removeFirst
                (p := fun t => t.id == tid && t.user_id == u) ht with h1 | h2
            · exact Or.inl h1
            · exact Or.inr (uid_of_idPred h2)

theorem update_task_onlyTouches {store : TaskStore} {p : ToolArgs} {s : String}
    {u : Int} {r : UpdateResult} {s' : TaskStore}
    (h : update_task store p = .ok (r, s')) (hs : p.user_id = s)
    (hu0 : pyInt? s = some u) : onlyTouches u store s' := by
  have hu : pyInt? p.user_id = some u := by rw [hs]; exact hu0
  rcases htid : p.task_id with _ | sid
  · rcases halias : updateAlias p with _ | ttl
    · simp only [update_task, htid, halias, hu] at h
      split at h <;> exact absurd h (by simp)
    · simp only [update_task, htid, halias, hu] at h
      split at h
      · exact absurd h (by simp)
      · split at h
        · exact absurd h (by simp)
        · simp only [Except.ok.injEq, Prod.mk.injEq] at h
          rw [← h.2]
          constructor
          · intro t ht
            rcases mem_updateFirst ht with h1 | ⟨t0, ht0, hp0, he⟩
            · exact Or.inl h1
            · refine Or.inr ?_
              rw [he]
              exact uid_of_titlePred (t := t0) hp0
          · intro t ht
            rcases mem_of_mem_updateFirst
                (p := fun t => sqlILike t.title ("%" ++ ttl ++ "%") && t.user_id == u)
                (f := fun t =>
                  { t with
                    title := match orS p.new_title p.title with
                      | some nt => nt | none => t.title,
                    description := match orS p.new_description p.description with
                      | some nd => nd | none => t.description })
                ht with h1 | h2
            · exact Or.inl h1
            · exact Or.inr (uid_of_titlePred h2)
  · rcases hparse : pyInt? sid with _ | tid
    · simp only [update_task, htid, hparse, hu] at h
      split at h <;> exact absurd h (by simp)
    · simp only [update_task, htid, hparse, hu] at h
      split at h
      · exact absurd h (by simp)
      · split at h
        · exact absurd h (by simp)
        · simp only [Except.ok.injEq, Prod.mk.injEq] at h
          rw [← h.2]
          constructor
          · intro t ht
            rcases mem_updateFirst ht with h1 | ⟨t0, ht0, hp0, he⟩
            · exact Or.inl h1
            · refine Or.inr ?_
              rw [he]
              exact uid_of_idPred (t := t0) hp0
          · intro t ht
            rcases mem_of_mem_updateFirst
                (p := fun t => t.id == tid && t.user_id == u)
                (f := fun t =>
                  { t with
                    title := match orS p.new_title p.title with
                      | some nt => nt | none => t.title,
                    description := match orS p.new_description p.description with
                      | some nd => nd | none => t.description })
                ht with h1 | h2
            · exact Or.inl h1
            · exact Or.inr (uid_of_idPred h2)

theorem dispatchCall_eq_add {c : ToolCallReq} (u : Int) (store : TaskStore)
    (h : c.function_name = "add_task") :
    dispatchCall u store c =
      foldTool store (fun r => "Added task: " ++ r.title)
        "Error executing add_task: "
        (add_task store { c.args with user_id := toString u }) := by
  simp [dispatchCall, h]

theorem dispatchCall_eq_list {c : ToolCallReq} (u : Int) (store : TaskStore)
    (h : c.function_name = "list_tasks") :
    dispatchCall u store c =
      foldTool store (fun r => "Found " ++ toString r.length ++ " tasks")
        "Error executing list_tasks: "
        (list_tasks store { c.args with user_id := toString u }) := by
  simp [dispatchCall, h]

theorem dispatchCall_eq_complete {c : ToolCallReq} (u : Int) (store : TaskStore)
    (h : c.function_name = "complete_task") :
    dispatchCall u store c =
      foldTool store (fun r => "Completed task: " ++ r.title)
        "Error executing complete_task: "
        (complete_task store { c.args with user_id := toString u }) := by
  simp [dispatchCall, h]

theorem dispatchCall_eq_delete {c : ToolCallReq} (u : Int) (store : TaskStore)
    (h : c.function_name = "delete_task") :
    dispatchCall u store c =
      foldTool store (fun r => "Deleted task ID: " ++ toString r.task_id)
        "Error executing delete_task: "
        (delete_task store { c.args with user_id := toString u }) := by
  simp [dispatchCall, h]

theorem dispatchCall_eq_update {c : ToolCallReq} (u : Int) (store : TaskStore)
    (h : c.function_name = "update_task") :
    dispatchCall u store c =
      foldTool store (fun r => "Updated task: " ++ r.title)
        "Error executing update_task: "
        (update_task store { c.args with user_id := toString u }) := by
  simp [dispatchCall, h]

theorem dispatchCall_eq_unknown {c : ToolCallReq} (u : Int) (store : TaskStore)
    (h1 : c.function_name ≠ "add_task") (h2 : c.function_name ≠ "list_tasks")
    (h3 : c.function_name ≠ "complete_task")
    (h4 : c.function_name ≠ "delete_task")
    (h5 : c.function_name ≠ "update_task") :
    dispatchCall u store c =
      ("Unknown function: " ++ c.function_name, store) := by
  simp [dispatchCall, h1, h2, h3, h4, h5]

theorem foldTool_pair_onlyTouches {A : Type} {u : Int} {store : TaskStore}
    {okFrag : A → String} {errPrefix : String}
    {e : Except String (A × TaskStore)} {frag : String} {s' : TaskStore}
    (hf : foldTool store okFrag errPrefix e = (frag, s'))
    (hok : ∀ r s, e = .ok (r, s) → onlyTouches u store s) :
    onlyTouches u store s' := by
  rcases e with m | ⟨r, s⟩
  · simp only [foldTool] at hf
    injection hf with h1 h2
    rw [← h2]
    exact onlyTouches_refl u store
  · simp only [foldTool] at hf
    injection hf with h1 h2
    rw [← h2]
    exact hok r s rfl

theorem dispatchCall_onlyTouches (u : Int) (store : TaskStore)
    (c : ToolCallReq) (hu : pyInt? (toString u) = some u) :
    onlyTouches u store (dispatchCall u store c).2 := by
  rcases hd : dispatchCall u store c with ⟨frag, s2⟩
  show onlyTouches u store s2
  by_cases h1 : c.function_name = "add_task"
  · rw [dispatchCall_eq_add u store h1] at hd
    exact foldTool_pair_onlyTouches hd (fun r s heq => add_task_onlyTouches heq rfl hu)
  by_cases h2 : c.function_name = "list_tasks"
  · rw [dispatchCall_eq_list u store h2] at hd
    exact foldTool_pair_onlyTouches hd (fun r s heq => list_tasks_onlyTouches heq)
  by_cases h3 : c.function_name = "complete_task"
  · rw [dispatchCall_eq_complete u store h3] at hd
    exact foldTool_pair_onlyTouches hd (fun r s heq => complete_task_onlyTouches heq rfl hu)
  by_cases h4 : c.function_name = "delete_task"
  · rw [dispatchCall_eq_delete u store h4] at hd
    exact foldTool_pair_onlyTouches hd (fun r s heq => delete_task_onlyTouches heq rfl hu)
  by_cases h5 : c.function_name = "update_task"
  · rw [dispatchCall_eq_update u store h5] at hd
    exact foldTool_pair_onlyTouches hd (fun r s heq => update_task_onlyTouches heq rfl hu)
  rw [dispatchCall_eq_unknown u store h1 h2 h3 h4 h5] at hd
  injection hd with ha hb
  rw [← hb]
  exact onlyTouches_refl u store

theorem executeToolCallsList_onlyTouches (u : Int)
    (hu : pyInt? (toString u) = some u) :
    ∀ (calls : List ToolCallReq) (store : TaskStore),
      onlyTouches u store (executeToolCallsList u store calls).2 := by
  intro calls
  induction calls with
  | nil => intro store; exact onlyTouches_refl u store
  | cons c cs ih =>
    intro store
    exact onlyTouches_trans (dispatchCall_onlyTouches u store c hu)
      (ih (dispatchCall u store c).2)

theorem list_tasks_owned {store : TaskStore} {p : ToolArgs} {s : String}
    {u : Int} {res : List TaskOut} {s' : TaskStore}
    (h : list_tasks store p = .ok (res, s')) (hs : p.user_id = s)
    (hu0 : pyInt? s = some u) :
    ∀ e ∈ res, e.user_id = u := by
  have hu : pyInt? p.user_id = some u := by rw [hs]; exact hu0
  simp only [list_tasks, hu] at h
  split at h
  · exact absurd h (by simp)
  · simp only [Except.ok.injEq, Prod.mk.injEq] at h
    rw [← h.1]
    intro e he
    rcases List.mem_map.mp he with ⟨t, ht, rfl⟩
    have hbase : t ∈ store.tasks.filter (fun t => t.user_id == u) := by
      split at ht
      · exact List.mem_of_mem_filter ht
      · split at ht
        · exact List.mem_of_mem_filter ht
        · exact ht
    have := (List.mem_filter.mp hbase).2
    simpa using this

theorem foldTool_fragment_ne_empty {A : Type} {store : TaskStore}
    {okFrag : A → String} {errPrefix : String}
    {e : Except String (A × TaskStore)}
    (hok : ∀ r : A, okFrag r ≠ "") (hpre : errPrefix ≠ "") :
    (foldTool store okFrag errPrefix e).1 ≠ "" := by
  rcases e with m | ⟨r, s⟩
  · simpa [foldTool] using string_append_ne_empty m hpre
  · simpa [foldTool] using hok r

theorem dispatchCall_fragment_ne_empty (u : Int) (store : TaskStore)
    (c : ToolCallReq) : (dispatchCall u store c).1 ≠ "" := by
  by_cases h1 : c.function_name = "add_task"
  · rw [dispatchCall_eq_add u store h1]
    exact foldTool_fragment_ne_empty
      (fun r => string_append_ne_empty r.title (by decide)) (by decide)
  by_cases h2 : c.function_name = "list_tasks"
  · rw [dispatchCall_eq_list u store h2]
    exact foldTool_fragment_ne_empty
      (fun r => string_append_ne_empty " tasks"
        (string_append_ne_empty (toString r.length) (by decide))) (by decide)
  by_cases h3 : c.function_name = "complete_task"
  · rw [dispatchCall_eq_complete u store h3]
    exact foldTool_fragment_ne_empty
      (fun r => string_append_ne_empty r.title (by decide)) (by decide)
  by_cases h4 : c.function_name = "delete_task"
  · rw [dispatchCall_eq_delete u store h4]
    exact foldTool_fragment_ne_empty
      (fun r => string_append_ne_empty (toString r.task_id) (by decide))
      (by decide)
  by_cases h5 : c.function_name = "update_task"
  · rw [dispatchCall_eq_update u store h5]
    exact foldTool_fragment_ne_empty
      (fun r => string_append_ne_empty r.title (by decide)) (by decide)
  rw [dispatchCall_eq_unknown u store h1 h2 h3 h4 h5]
  exact string_append_ne_empty c.function_name (by decide)

/-! ### Claims -/

/-- C1: over a whole tool-call batch of a chat turn, every Task Store row
that is created, modified or deleted belongs to the authenticated caller
`u` (so never to any `user_id` embedded in the model-supplied arguments
when the two differ — the dispatcher overwrites the field with
`str(current_user.id)` before every call), and every row returned by a
dispatched `list_tasks` belongs to `u` as well. -/
theorem C1_identity_override_scopes_store_operations
    (u : Int) (hu : pyInt? (toString u) = some u)
    (calls : List ToolCallReq) (store : TaskStore) :
    (∀ t ∈ (execute_tool_calls calls u store).2.tasks,
        t ∈ store.tasks ∨ t.user_id = u) ∧
    (∀ t ∈ store.tasks,
        t ∈ (execute_tool_calls calls u store).2.tasks ∨ t.user_id = u) ∧
    (∀ (p : ToolArgs) (res : List TaskOut) (s' : TaskStore),
        list_tasks store { p with user_id := toString u } = .ok (res, s') →
        ∀ e ∈ res, e.user_id = u) := by
  have hall := executeToolCallsList_onlyTouches u hu calls store
  have he : (execute_tool_calls calls u store).2 =
      (executeToolCallsList u store calls).2 := rfl
  refine ⟨?_, ?_, ?_⟩
  · rw [he]
    exact hall.1
  · rw [he]
    exact hall.2
  · intro p res s' h
    exact list_tasks_owned h rfl hu

/-- Witness for C1 at the concrete caller id 7 with a batch whose embedded
`user_id` is 999: the only row of the final store was created for user 7. -/
theorem C1_witness :
    pyInt? (toString (7 : Int)) = some 7 ∧
    (∀ t ∈ (execute_tool_calls
        [⟨"c1", "add_task", { user_id := "999", title := some "X" }⟩]
        7 ⟨[], 1⟩).2.tasks,
      t ∈ (⟨[], 1⟩ : TaskStore).tasks ∨ t.user_id = 7) :=
  ⟨by decide,
   (C1_identity_override_scopes_store_operations 7 (by decide) _ _).1⟩

/-- C2: when the path-supplied user id differs from the authenticated
caller's id, the turn is rejected with the 403 "Access denied" outcome
before anything runs: the database state is unchanged, the completion
client is never invoked, nothing is sent to the model, and no tool call is
executed. -/
theorem C2_authorization_gate_rejects_before_pipeline
    (st : ChatState) (path msg : String) (cid? : Option Nat) (u : Int)
    (oracle : List ChatMsg → AIRawResult) (h : toString u ≠ path) :
    chatTurn path msg cid? u oracle st =
      { response := .forbidden "Access denied", state := st,
        completionCalled := false, sentToModel := [],
        toolCallsExecuted := 0 } := by
  simp [chatTurn, h]

/-- Witness for C2: caller 1 addressing path user id "2". -/
theorem C2_witness :
    toString (1 : Int) ≠ "2" ∧
    chatTurn "2" "hi" none 1 (fun _ => .message "ok")
        ⟨[], 1, [], 1, ⟨[], 1⟩⟩ =
      { response := .forbidden "Access denied",
        state := ⟨[], 1, [], 1, ⟨[], 1⟩⟩, completionCalled := false,
        sentToModel := [], toolCallsExecuted := 0 } :=
  ⟨by decide,
   C2_authorization_gate_rejects_before_pipeline _ _ _ _ 1 _ (by decide)⟩

/-- C3: a batch of N tool calls always produces exactly N non-empty outcome
fragments, joined with "; " into the combined summary, and the final store
is the sequential fold of the per-call dispatches — so a failing call
neither aborts the batch nor undoes the effect of the calls that
succeeded. -/
theorem C3_partial_failure_isolation
    (calls : List ToolCallReq) (u : Int) (store : TaskStore) :
    (executeToolCallsList u store calls).1.length = calls.length ∧
    (∀ f ∈ (executeToolCallsList u store calls).1, f ≠ "") ∧
    execute_tool_calls calls u store =
      (String.intercalate "; " (executeToolCallsList u store calls).1,
       (executeToolCallsList u store calls).2) ∧
    (executeToolCallsList u store calls).2 =
      calls.foldl (fun s c => (dispatchCall u s c).2) store := by
  refine ⟨?_, ?_, rfl, ?_⟩
  · induction calls generalizing store with
    | nil => rfl
    | cons c cs ih => simp only [executeToolCallsList, List.length_cons, ih]
  · induction calls generalizing store with
    | nil => intro f hf; simp [executeToolCallsList] at hf
    | cons c cs ih =>
      intro f hf
      simp only [executeToolCallsList, List.mem_cons] at hf
      rcases hf with hf | hf
      · rw [hf]
        exact dispatchCall_fragment_ne_empty u store c
      · exact ih (dispatchCall u store c).2 f hf
  · induction calls generalizing store with
    | nil => rfl
    | cons c cs ih => simp only [executeToolCallsList, List.foldl_cons, ih]

/-- Witness for C3 on a three-call batch whose middle call raises NotFound:
three fragments, all non-empty. -/
theorem C3_witness :
    (executeToolCallsList 1 ⟨[], 1⟩
      [⟨"c1", "add_task", { user_id := "9", title := some "A" }⟩,
       ⟨"c2", "complete_task", { user_id := "9", task_id := some "99" }⟩,
       ⟨"c3", "list_tasks", { user_id := "9" }⟩]).1.length = 3 ∧
    (∀ f ∈ (executeToolCallsList 1 ⟨[], 1⟩
      [⟨"c1", "add_task", { user_id := "9", title := some "A" }⟩,
       ⟨"c2", "complete_task", { user_id := "9", task_id := some "99" }⟩,
       ⟨"c3", "list_tasks", { user_id := "9" }⟩]).1, f ≠ "") :=
  ⟨(C3_partial_failure_isolation _ 1 _).1,
   (C3_partial_failure_isolation
     [⟨"c1", "add_task", { user_id := "9", title := some "A" }⟩,
      ⟨"c2", "complete_task", { user_id := "9", task_id := some "99" }⟩,
      ⟨"c3", "list_tasks", { user_id := "9" }⟩] 1 ⟨[], 1⟩).2.1⟩

/-- C7: each of the five tool operations checks
`MockAuthService.validate_user` on the supplied user id before touching the
store; when the id does not parse as a positive integer the call raises
exactly `ValueError("Invalid user: <id>")` — a format error distinct from
the "not found" message family — and no store mutation happens (the
operation returns no new store at all).  For `add_task`/`complete_task`
the required keys `title`/`task_id` must be present, since Python reads
them before validating. -/
theorem C7_user_validation_before_store_access
    (store : TaskStore) (p : ToolArgs)
    (h : validate_user p.user_id = false) :
    (p.title.isSome →
      add_task store p = .error ("Invalid user: " ++ p.user_id)) ∧
    list_tasks store p = .error ("Invalid user: " ++ p.user_id) ∧
    (p.task_id.isSome →
      complete_task store p = .error ("Invalid user: " ++ p.user_id)) ∧
    delete_task store p = .error ("Invalid user: " ++ p.user_id) ∧
    update_task store p = .error ("Invalid user: " ++ p.user_id) := by
  refine ⟨?_, ?_, ?_, ?_, ?_⟩
  · intro ht
    rcases Option.isSome_iff_exists.mp ht with ⟨t, ht'⟩
    simp [add_task, ht', h]
  · simp [list_tasks, h]
  · intro ht
    rcases Option.isSome_iff_exists.mp ht with ⟨sid, ht'⟩
    simp [complete_task, ht', h]
  · simp [delete_task, h]
  · simp [update_task, h]

/-- Witness for C7 at the malformed user id "abc". -/
theorem C7_witness :
    validate_user "abc" = false ∧
    add_task ⟨[], 1⟩
        ⟨"abc", some "1", some "x", none, none, none, none, none, none,
          none, none⟩ =
      .error "Invalid user: abc" ∧
    delete_task ⟨[], 1⟩
        ⟨"abc", some "1", some "x", none, none, none, none, none, none,
          none, none⟩ =
      .error "Invalid user: abc" := by
  have h := C7_user_validation_before_store_access ⟨[], 1⟩
    ⟨"abc", some "1", some "x", none, none, none, none, none, none,
      none, none⟩ (by decide)
  exact ⟨by decide, h.1 (by decide), h.2.2.2.1⟩

/-- C8: `complete_task` on an already-completed task owned by the caller is
idempotent: it succeeds, reports status "completed", and the store is
unchanged (the row's `completed` flag stays `true`). -/
theorem C8_complete_task_idempotent_on_completed
    (store : TaskStore) (p : ToolArgs) (sid : String) (u tid : Int)
    (t0 : Task) (hsid : p.task_id = some sid)
    (hval : validate_user p.user_id = true)
    (hu : pyInt? p.user_id = some u) (htid : pyInt? sid = some tid)
    (hfind : store.tasks.find? (fun t => t.id == tid && t.user_id == u) =
      some t0)
    (hcomp : t0.completed = true) :
    complete_task store p =
      .ok ({ task_id := t0.id, status := "completed", title := t0.title },
        store) := by
  have hfix : ({ t0 with completed := true } : Task) = t0 := by
    cases t0
    simp_all
  simp only [complete_task, hsid, hval, hu, htid, hfind,
    updateFirst_eq_self (f := fun t => { t with completed := true }) hfind
      hfix,
    hfix, Bool.not_true, Bool.false_eq_true, if_false]

/-- Witness for C8: completing the already-completed task 7 of user 1
returns success and leaves the store unchanged. -/
theorem C8_witness :
    complete_task ⟨[⟨7, 1, "T", "", true⟩], 8⟩
        ⟨"1", some "7", none, none, none, none, none, none, none, none,
          none⟩ =
      .ok (⟨7, "completed", "T"⟩, ⟨[⟨7, 1, "T", "", true⟩], 8⟩) :=
  C8_complete_task_idempotent_on_completed
    ⟨[⟨7, 1, "T", "", true⟩], 8⟩
    ⟨"1", some "7", none, none, none, none, none, none, none, none, none⟩
    "7" 1 7 ⟨7, 1, "T", "", true⟩ rfl (by decide) (by decide) (by decide)
    (by decide) rfl

/-- C9: starting from any store in which the caller owns no task titled
`T`, `add_task(title=T, description=D)` followed by
`list_tasks(status="all")` yields a list with exactly one entry having
title `T`, description `D` and `completed = false`. -/
theorem C9_add_then_list_roundtrip
    (store : TaskStore) (p1 p2 : ToolArgs) (s T D : String) (u : Int)
    (r : AddResult) (s1 : TaskStore) (res : List TaskOut) (s2 : TaskStore)
    (hval : validate_user s = true) (hu : pyInt? s = some u)
    (h1u : p1.user_id = s) (h1t : p1.title = some T)
    (h1d : p1.description = some D) (h2u : p2.user_id = s)
    (h2s : p2.status = some "all")
    (hfresh : ∀ t ∈ store.tasks, t.user_id = u → t.title ≠ T)
    (hadd : add_task store p1 = .ok (r, s1))
    (hlist : list_tasks s1 p2 = .ok (res, s2)) :
    res.countP
      (fun e => e.title == T && e.description == D && e.completed == false) =
      1 := by
  have hu1 : pyInt? p1.user_id = some u := by rw [h1u]; exact hu
  have hval1 : validate_user p1.user_id = true := by rw [h1u]; exact hval
  have hu2 : pyInt? p2.user_id = some u := by rw [h2u]; exact hu
  have hval2 : validate_user p2.user_id = true := by rw [h2u]; exact hval
  simp only [add_task, h1t, h1d, Option.getD_some, hu1, hval1, Bool.not_true,
    Bool.false_eq_true, if_false, Except.ok.injEq, Prod.mk.injEq] at hadd
  rw [← hadd.2] at hlist
  have e1 : ("all" == "pending") = false := rfl
  have e2 : ("all" == "completed") = false := rfl
  simp only [list_tasks, h2s, Option.getD_some, hu2, hval2, Bool.not_true,
    e1, e2, Bool.false_eq_true, if_false, Except.ok.injEq,
    Prod.mk.injEq] at hlist
  have hres := hlist.1
  rw [← hres]
  rw [List.filter_append, List.map_append, List.countP_append]
  have hold : ((store.tasks.filter (fun t => t.user_id == u)).map
      (fun t => (⟨t.id, t.title, t.description, t.completed,
        t.user_id⟩ : TaskOut))).countP
      (fun e => e.title == T && e.description == D && e.completed == false) =
      0 := by
    refine List.countP_eq_zero.mpr ?_
    intro e he
    rcases List.mem_map.mp he with ⟨t, htf, rfl⟩
    have htmem := List.mem_of_mem_filter htf
    have huid : t.user_id = u := by simpa using (List.mem_filter.mp htf).2
    have hne := hfresh t htmem huid
    simp [hne]
  rw [hold]
  simp

/-- Witness for C9: user 1 owns only a task titled "Other"; after adding
("T", "D") the listing contains exactly one matching entry. -/
theorem C9_witness :
    List.countP
      (fun (e : TaskOut) =>
        e.title == "T" && e.description == "D" && e.completed == false)
      [⟨5, "Other", "", false, 1⟩, ⟨6, "T", "D", false, 1⟩] = 1 :=
  C9_add_then_list_roundtrip ⟨[⟨5, 1, "Other", "", false⟩], 6⟩
    ⟨"1", none, some "T", some "D", none, none, none, none, none, none, none⟩
    ⟨"1", none, none, none, some "all", none, none, none, none, none, none⟩
    "1" "T" "D" 1 ⟨6, "created", "T", "D", false⟩
    ⟨[⟨5, 1, "Other", "", false⟩, ⟨6, 1, "T", "D", false⟩], 7⟩
    [⟨5, "Other", "", false, 1⟩, ⟨6, "T", "D", false, 1⟩]
    ⟨[⟨5, 1, "Other", "", false⟩, ⟨6, 1, "T", "D", false⟩], 7⟩
    (by decide) (by decide) rfl rfl rfl rfl rfl (by decide) rfl rfl

/-- C10: an `update_task` call whose arguments contain only a `title` value
(no `task_id`, no dedicated search alias, no `new_title`) uses that single
value both as the search key and as the new title: on success the matched
row's stored title is overwritten with the search string itself. -/
theorem C10_update_title_doubles_as_search_key_and_new_value
    (store : TaskStore) (p : ToolArgs) (T : String) (r : UpdateResult)
    (s' : TaskStore) (h1 : p.task_id = none) (h2 : p.title_to_find = none)
    (h3 : p.task_name = none) (h4 : p.name = none) (h5 : p.task_title = none)
    (h6 : p.new_title = none) (h7 : p.title = some T)
    (hok : update_task store p = .ok (r, s')) :
    r.status = "updated" ∧ r.title = T ∧
    ∃ t ∈ s'.tasks, t.id = r.task_id ∧ t.title = T := by
  have halias : updateAlias p = some T := by
    simp [updateAlias, orS, h2, h3, h4, h5, h7]
  have hnew : orS p.new_title p.title = some T := by simp [orS, h6, h7]
  simp only [update_task, h1, halias, hnew] at hok
  split at hok
  · exact absurd hok (by simp)
  · split at hok
    · exact absurd hok (by simp)
    · split at hok
      · exact absurd hok (by simp)
      · next t0 heq =>
        simp only [Except.ok.injEq, Prod.mk.injEq] at hok
        refine ⟨by rw [← hok.1], by rw [← hok.1], ?_⟩
        have hmem := image_mem_updateFirst
          (f := fun t =>
            { t with
              title := T,
              description :=
                match orS p.new_description p.description with
                | some nd => nd | none => t.description })
          heq
        rw [← hok.2]
        exact ⟨_, hmem, by rw [← hok.1], rfl⟩

/-- Witness for C10: the only argument is `title="b"`; the task titled
"abc" is matched by substring search and its title is overwritten to "b". -/
theorem C10_witness :
    (⟨"1", none, some "b", none, none, none, none, none, none, none,
        none⟩ : ToolArgs).title = some "b" ∧
    ((⟨1, "updated", "b", "d"⟩ : UpdateResult).status = "updated" ∧
      (⟨1, "updated", "b", "d"⟩ : UpdateResult).title = "b" ∧
      ∃ t ∈ (⟨[⟨1, 1, "b", "d", false⟩], 2⟩ : TaskStore).tasks,
        t.id = (⟨1, "updated", "b", "d"⟩ : UpdateResult).task_id ∧
        t.title = "b") :=
  ⟨rfl,
   C10_update_title_doubles_as_search_key_and_new_value
     ⟨[⟨1, 1, "abc", "d", false⟩], 2⟩
     ⟨"1", none, some "b", none, none, none, none, none, none, none, none⟩
     "b" ⟨1, "updated", "b", "d"⟩ ⟨[⟨1, 1, "b", "d", false⟩], 2⟩
     rfl rfl rfl rfl rfl rfl rfl rfl⟩

/-- C6 counterexample: `update_task`, unlike `delete_task`, does NOT escape
the wildcard metacharacters of the search title.  With one owned task
titled "ab" and search title "a_", the escaped pattern matches nothing
(first conjunct would force a "not found" failure under the claim), yet the
code matches "ab" via the `_` wildcard and updates it. -/
theorem C6_counterexample :
    update_task ⟨[⟨1, 1, "ab", "", false⟩], 2⟩
        ⟨"1", none, none, none, none, none, none, none, some "a_",
          some "zz", none⟩ =
      .ok (⟨1, "updated", "zz", ""⟩, ⟨[⟨1, 1, "zz", "", false⟩], 2⟩) ∧
    ([⟨1, 1, "ab", "", false⟩] : List Task).find? (fun tk =>
        sqlILike tk.title ("%" ++ escapeLike "a_" ++ "%") &&
        tk.user_id == 1) = none :=
  ⟨rfl, rfl⟩

/-- C6 (amended): both operations prefer `task_id` over every title alias;
when `task_id` is absent the task is located by a case-insensitive partial
title match scoped to the owner, and a miss raises "not found" naming the
supplied title — but only `delete_task` escapes `%`/`_` before matching,
while `update_task` matches the raw string, so its metacharacters act as
wildcards. -/
theorem C6_dual_identification_and_escaping
    (store : TaskStore) (p : ToolArgs) (s t sid : String) (u : Int)
    (hval : validate_user s = true) (hu : pyInt? s = some u)
    (hus : p.user_id = s) :
    (p.task_id = some sid →
      delete_task store p = delete_task store
        { p with title := none, task_name := none, name := none, task_title := none }) ∧
    (p.task_id = some sid →
      update_task store p = update_task store
        { p with title_to_find := none, task_name := none, name := none, task_title := none }) ∧
    (p.task_id = none → deleteAlias p = some t →
      store.tasks.find? (fun tk =>
          sqlILike tk.title ("%" ++ escapeLike t ++ "%") &&
          tk.user_id == u) = none →
      delete_task store p =
        .error ("Task with title \x27" ++ t ++
          "\x27 not found for user " ++ s)) ∧
    (∀ tk, p.task_id = none → deleteAlias p = some t →
      store.tasks.find? (fun tk =>
          sqlILike tk.title ("%" ++ escapeLike t ++ "%") &&
          tk.user_id == u) = some tk →
      delete_task store p = .ok (⟨tk.id, tk.title, "deleted"⟩,
        ⟨removeFirst (fun tk =>
            sqlILike tk.title ("%" ++ escapeLike t ++ "%") &&
            tk.user_id == u) store.tasks,
          store.nextId⟩)) ∧
    (p.task_id = none → updateAlias p = some t →
      store.tasks.find? (fun tk =>
          sqlILike tk.title ("%" ++ t ++ "%") && tk.user_id == u) = none →
      update_task store p =
        .error ("Task with title \x27" ++ t ++
          "\x27 not found for user " ++ s)) := by
  have hval' : validate_user p.user_id = true := by rw [hus]; exact hval
  have hu' : pyInt? p.user_id = some u := by rw [hus]; exact hu
  refine ⟨?_, ?_, ?_, ?_, ?_⟩
  · intro hsid
    simp [delete_task, hsid, hval', hu']
  · intro hsid
    simp [update_task, hsid, hval', hu']
  · intro h1 h2 h3
    simp [delete_task, h1, h2, h3, hval, hu, hval', hu', hus]
  · intro tk h1 h2 h3
    simp [delete_task, h1, h2, h3, hval, hu, hval', hu', hus]
  · intro h1 h2 h3
    simp [update_task, h1, h2, h3, hval, hu, hval', hu', hus]

/-- Witness for C6 (amended): for user 1 owning only "a_b", deleting by
title "x_" and updating by title "z_" both fail with "not found" naming the
supplied title. -/
theorem C6_witness :
    delete_task ⟨[⟨1, 1, "a_b", "", false⟩], 2⟩
        ⟨"1", none, some "x_", none, none, none, none, none, none, none,
          none⟩ =
      .error "Task with title \x27x_\x27 not found for user 1" ∧
    update_task ⟨[⟨1, 1, "a_b", "", false⟩], 2⟩
        ⟨"1", none, none, none, none, none, none, none, some "z_", none,
          none⟩ =
      .error "Task with title \x27z_\x27 not found for user 1" :=
  ⟨(C6_dual_identification_and_escaping ⟨[⟨1, 1, "a_b", "", false⟩], 2⟩
      ⟨"1", none, some "x_", none, none, none, none, none, none, none, none⟩
      "1" "x_" "0" 1 (by decide) (by decide) rfl).2.2.1 rfl rfl (by decide),
   (C6_dual_identification_and_escaping ⟨[⟨1, 1, "a_b", "", false⟩], 2⟩
      ⟨"1", none, none, none, none, none, none, none, some "z_", none, none⟩
      "1" "z_" "0" 1 (by decide) (by decide) rfl).2.2.2.2 rfl rfl
      (by decide)⟩

/-- C4 counterexample: the per-call failure fragment folded into the reply
embeds the raw exception text verbatim.  A `complete_task` call for the
missing task 99 raises `ValueError("Task 99 not found for user 1")`, and
the user-visible reply contains exactly that exception message after the
fixed prefix. -/
theorem C4_counterexample :
    complete_task ⟨[], 1⟩
        ⟨"1", some "99", none, none, none, none, none, none, none, none,
          none⟩ =
      .error "Task 99 not found for user 1" ∧
    (chatTurn "1" "done" (some 1) 1
        (fun _ => .toolCalls
          [⟨"c1", "complete_task",
            ⟨"999", some "99", none, none, none, none, none, none, none,
              none, none⟩⟩] "")
        ⟨[⟨1, 1⟩], 2, [], 1, ⟨[], 1⟩⟩).response =
      .ok 1 ("I\x27ve processed your request. Error executing complete_task: "
        ++ "Task 99 not found for user 1") := by
  exact ⟨rfl, rfl⟩

/-- C4 (amended): a whole-turn completion failure does surface only the
fixed safe message — the reply is the same constant string whatever the
exception detail was, which is only logged — but a per-call tool failure
fragment is NOT sanitized: it is the fixed prefix followed by the raised
exception's own message text. -/
theorem C4_safe_completion_failure_but_raw_tool_errors
    (st : ChatState) (path msg : String) (cid? : Option Nat) (u : Int)
    (detail : String) (c : ToolCallReq) (store : TaskStore) (m : String) :
    (toString u = path →
      (chatTurn path msg cid? u (fun _ => .exn detail) st).response =
        .ok (get_or_create_conversation cid? u st).1.id safeErrorContent) ∧
    (c.function_name = "add_task" →
      add_task store { c.args with user_id := toString u } = .error m →
      dispatchCall u store c = ("Error executing add_task: " ++ m, store)) ∧
    (c.function_name = "list_tasks" →
      list_tasks store { c.args with user_id := toString u } = .error m →
      dispatchCall u store c = ("Error executing list_tasks: " ++ m, store)) ∧
    (c.function_name = "complete_task" →
      complete_task store { c.args with user_id := toString u } = .error m →
      dispatchCall u store c =
        ("Error executing complete_task: " ++ m, store)) ∧
    (c.function_name = "delete_task" →
      delete_task store { c.args with user_id := toString u } = .error m →
      dispatchCall u store c =
        ("Error executing delete_task: " ++ m, store)) ∧
    (c.function_name = "update_task" →
      update_task store { c.args with user_id := toString u } = .error m →
      dispatchCall u store c =
        ("Error executing update_task: " ++ m, store)) := by
  refine ⟨?_, ?_, ?_, ?_, ?_, ?_⟩
  · intro h
    simp [chatTurn, h, processMessage]
  · intro hn he
    rw [dispatchCall_eq_add u store hn]
    simp [foldTool, he]
  · intro hn he
    rw [dispatchCall_eq_list u store hn]
    simp [foldTool, he]
  · intro hn he
    rw [dispatchCall_eq_complete u store hn]
    simp [foldTool, he]
  · intro hn he
    rw [dispatchCall_eq_delete u store hn]
    simp [foldTool, he]
  · intro hn he
    rw [dispatchCall_eq_update u store hn]
    simp [foldTool, he]

/-- Witness for C4 (amended): a completion failure with detail "boom"
yields exactly the safe content, and the NotFound failure of a
`complete_task` call yields the prefixed raw exception fragment. -/
theorem C4_witness :
    (chatTurn "1" "hi" (some 1) 1 (fun _ => .exn "boom")
        ⟨[⟨1, 1⟩], 2, [], 1, ⟨[], 1⟩⟩).response = .ok 1 safeErrorContent ∧
    dispatchCall 1 ⟨[], 1⟩
        ⟨"c1", "complete_task",
          ⟨"999", some "99", none, none, none, none, none, none, none,
            none, none⟩⟩ =
      ("Error executing complete_task: Task 99 not found for user 1",
        ⟨[], 1⟩) :=
  ⟨(C4_safe_completion_failure_but_raw_tool_errors
      ⟨[⟨1, 1⟩], 2, [], 1, ⟨[], 1⟩⟩ "1" "hi" (some 1) 1 "boom"
      ⟨"c1", "complete_task",
        ⟨"999", some "99", none, none, none, none, none, none, none, none,
          none⟩⟩
      ⟨[], 1⟩ "Task 99 not found for user 1").1 (by decide),
   (C4_safe_completion_failure_but_raw_tool_errors
      ⟨[⟨1, 1⟩], 2, [], 1, ⟨[], 1⟩⟩ "1" "hi" (some 1) 1 "boom"
      ⟨"c1", "complete_task",
        ⟨"999", some "99", none, none, none, none, none, none, none, none,
          none⟩⟩
      ⟨[], 1⟩ "Task 99 not found for user 1").2.2.2.1 rfl rfl⟩

/-- C5 (amended): after persisting the inbound message, the history query
returns the OLDEST `min(k, 50)` messages (ascending order with `LIMIT 50`)
and the last element of that window is dropped.  Hence the model receives
the first `k−1` messages when `k−1 < 50`, but only the OLDEST 49 — not the
most recent 50 — once the conversation holds 50 or more prior messages; the
just-persisted message is sent only as the final turn and never as part of
the history. -/
theorem C5_history_oldest_window_excluding_current
    (st : ChatState) (cid : Nat) (u : Int) (path msg : String)
    (ms : List Message) (oracle : List ChatMsg → AIRawResult)
    (hauth : toString u = path) (hcid : cid ≠ 0)
    (hconv : get_conversation st cid u = some ⟨cid, u⟩)
    (hms : st.messages.filter
      (fun m => m.conversation_id == cid && m.user_id == u) = ms) :
    (chatTurn path msg (some cid) u oracle st).sentToModel =
      (if ms.length < 50 then
        ms.map (fun m => ChatMsg.mk m.role m.content)
       else (ms.take 49).map (fun m => ChatMsg.mk m.role m.content)) ++
      [ChatMsg.mk "user" msg] := by
  have hne : ¬ toString u ≠ path := fun hC => hC hauth
  have hconv2 : get_or_create_conversation (some cid) u st = (⟨cid, u⟩, st) := by
    simp [get_or_create_conversation, hcid, hconv]
  have hsingle : List.filter
      (fun m => m.conversation_id == cid && m.user_id == u)
      ([⟨st.nextMessageId, cid, u, "user", msg⟩] : List Message) =
      [⟨st.nextMessageId, cid, u, "user", msg⟩] := by
    simp [List.filter]
  simp only [chatTurn, if_neg hne, hconv2, add_message,
    get_conversation_history, List.filter_append, hms, hsingle]
  have hcore : (((ms ++
        [(⟨st.nextMessageId, cid, u, "user", msg⟩ : Message)]).take 50).map
          (fun m => ChatMsg.mk m.role m.content)).dropLast ++
        [ChatMsg.mk "user" msg] =
      (if ms.length < 50 then
        ms.map (fun m => ChatMsg.mk m.role m.content)
       else (ms.take 49).map (fun m => ChatMsg.mk m.role m.content)) ++
      [ChatMsg.mk "user" msg] := by
    by_cases hlen : ms.length < 50
    · rw [if_pos hlen, List.take_of_length_le
        (by simp only [List.length_append, List.length_singleton]; omega)]
      simp only [List.map_append, List.map_cons, List.map_nil,
        List.dropLast_concat]
    · rw [if_neg hlen]
      have h50 : 50 ≤ ms.length := Nat.not_lt.mp hlen
      rw [List.take_append_of_le_length h50]
      congr 1
      rw [List.dropLast_eq_take]
      have hl : ((ms.take 50).map
          (fun m => ChatMsg.mk m.role m.content)).length = 50 := by
        rw [List.length_map, List.length_take]
        omega
      rw [hl, ← List.map_take, List.take_take]
      norm_num
  split <;> exact hcore

/-- Witness for C5 (amended): with 2 prior messages the model receives both
of them followed by the current message. -/
theorem C5_witness :
    (chatTurn "1" "m3" (some 1) 1 (fun _ => .message "ok")
        ⟨[⟨1, 1⟩], 2,
          [⟨1, 1, 1, "user", "m1"⟩, ⟨2, 1, 1, "assistant", "m2"⟩], 3,
          ⟨[], 1⟩⟩).sentToModel =
      [⟨"user", "m1"⟩, ⟨"assistant", "m2"⟩, ⟨"user", "m3"⟩] := by
  have h := C5_history_oldest_window_excluding_current
    ⟨[⟨1, 1⟩], 2,
      [⟨1, 1, 1, "user", "m1"⟩, ⟨2, 1, 1, "assistant", "m2"⟩], 3, ⟨[], 1⟩⟩
    1 1 "1" "m3"
    [⟨1, 1, 1, "user", "m1"⟩, ⟨2, 1, 1, "assistant", "m2"⟩]
    (fun _ => .message "ok") (by decide) (by decide) rfl rfl
  rw [h]
  rfl

/-- C5 counterexample: with exactly 50 prior persisted messages (turn
k = 51, so k−1 = 50 does not exceed 50), the claim requires the model to
receive all 50 prior messages plus the final turn; the code sends only the
oldest 49 plus the final turn. -/
theorem C5_counterexample :
    (chatTurn "1" "new" (some 1) 1 (fun _ => .message "ok")
        c5state).sentToModel ≠
      (claimHistoryC5 c5prior).map (fun m => ChatMsg.mk m.role m.content) ++
        [ChatMsg.mk "user" "new"] := by
  decide

end Todo
